import Mathlib

/-!
Shallow embedding of the "Advance Features" phase of the Todo application
(`src/Phase-01/Advance-Features/src/todo/models.py`, `services.py` and
`src/Phase-01/src/todo/storage.py`), together with theorems settling the
frozen claims about it.

Modelling conventions:
* Python `datetime` values carry no time-of-day component anywhere relevant
  (due dates are parsed at midnight), so a due date is a `Date` record of
  year/month/day.  `datetime.now()` (used only for `created_at`) is modelled
  as an explicit `Nat` timestamp argument.
* Python strings are Lean `String`s; `str.casefold` is modelled as ASCII
  lower-casing (`Char.toLower` per character) and `str.strip` as stripping
  ASCII whitespace, which is faithful on the ASCII data the program deals
  with.
* Raising `ValidationError` / `ValueError` is modelled as `Except.error`
  with a message; Python message texts are abbreviated (their exact wording
  is never load-bearing).
* The service mutates the very task object held by storage (Python
  aliasing: `storage.get_by_id` returns a reference).  Each field
  assignment on that object is therefore modelled as an immediate
  `Storage.update` write-back.
-/

set_option autoImplicit false

namespace Todo

/-- Priority enum from models.py (HIGH/MEDIUM/LOW). -/
inductive Priority where
  | high
  | medium
  | low
deriving DecidableEq

/-- Recurrence enum from models.py (NONE/DAILY/WEEKLY/MONTHLY). -/
inductive Recurrence where
  | none
  | daily
  | weekly
  | monthly
deriving DecidableEq

/-- Calendar date (the date component of a Python `datetime`). -/
structure Date where
  year : Nat
  month : Nat
  day : Nat
deriving DecidableEq

/-- Task dataclass from models.py.  `created_at` is a timestamp modelled as
a `Nat` (only its ordering is ever used). -/
structure Task where
  id : Nat
  title : String
  description : String
  is_completed : Bool
  created_at : Nat
  priority : Priority
  category : Option String
  due_date : Option Date
  recurrence : Recurrence
  parent_task_id : Option Nat
deriving DecidableEq

/-! ### String helpers (models of Python str methods) -/

/-- Model of `str.casefold`: ASCII per-character lower-casing. -/
def casefold (s : String) : String :=
  ⟨s.data.map Char.toLower⟩

/-- ASCII whitespace, as stripped by Python `str.strip()`. -/
def isPyWS (c : Char) : Bool :=
  c == ' ' || c == '\t' || c == '\n' || c == '\r' || c == '\x0b' || c == '\x0c'

/-- Model of `str.strip()` (without arguments): drop leading and trailing
whitespace. -/
def pyStrip (s : String) : String :=
  ⟨((s.data.dropWhile isPyWS).reverse.dropWhile isPyWS).reverse⟩

/-- Model of `len(s)` for Python strings: number of characters. -/
def strLen (s : String) : Nat :=
  s.data.length

/-- Does the first list occur at the head of the second one? -/
def startsWithCh : List Char → List Char → Bool
  | [], _ => true
  | _ :: _, [] => false
  | a :: as, b :: bs => a == b && startsWithCh as bs

/-- Does the first list occur as a contiguous run somewhere in the second? -/
def subAt (n : List Char) : List Char → Bool
  | [] => startsWithCh n []
  | h :: hs => startsWithCh n (h :: hs) || subAt n hs

/-- Model of Python `needle in hay` for strings (substring test). -/
def strContains (hay needle : String) : Bool :=
  subAt needle.data hay.data

/-! ### Date arithmetic (models.py) -/

/-- Gregorian leap-year rule (as implemented by Python `datetime`). -/
def isLeap (y : Nat) : Bool :=
  (y % 4 == 0 && y % 100 != 0) || (y % 400 == 0)

/-- Number of days in a month (for a valid month number 1..12). -/
def daysInMonth (y m : Nat) : Nat :=
  if m = 2 then (if isLeap y then 29 else 28)
  else if m = 4 ∨ m = 6 ∨ m = 9 ∨ m = 11 then 30
  else 31

/-- Model of the `datetime(year, month, day)` constructor: it raises
`ValueError` when the components do not form a valid calendar date
(year out of 1..9999, month out of 1..12, day out of range for the
month). -/
def mkDatetime (y m d : Nat) : Except String Date :=
  if y < 1 ∨ y > 9999 then Except.error "year out of range"
  else if m < 1 ∨ m > 12 then Except.error "month must be in 1..12"
  else if d < 1 ∨ d > daysInMonth y m then Except.error "day is out of range for month"
  else Except.ok ⟨y, m, d⟩

/-- Successor day in the calendar (model of `+ timedelta(days=1)` on a
valid date; year-9999 overflow is out of scope for every claim). -/
def nextDay (d : Date) : Date :=
  if d.day < daysInMonth d.year d.month then ⟨d.year, d.month, d.day + 1⟩
  else if d.month < 12 then ⟨d.year, d.month + 1, 1⟩
  else ⟨d.year + 1, 1, 1⟩

/-- Model of `date + timedelta(days=n)`. -/
def addDays (d : Date) : Nat → Date
  | 0 => d
  | n + 1 => nextDay (addDays d n)

/-- Predecessor day in the calendar (model of `- timedelta(days=1)`). -/
def prevDay (d : Date) : Date :=
  if 1 < d.day then ⟨d.year, d.month, d.day - 1⟩
  else if 1 < d.month then ⟨d.year, d.month - 1, daysInMonth d.year (d.month - 1)⟩
  else ⟨d.year - 1, 12, 31⟩

/-- Model of `calculate_next_due_date` (models.py lines 118-159).  The
MONTHLY branch mirrors the source exactly: it first wraps month 13 of the
*target* month to January of the next year, but then computes the last day
of the target month as `(datetime(year, month + 1, 1) - timedelta(days=1)).day`
without wrapping `month + 1`, so `datetime` is called with month 13 when
the target month is December (i.e. the current month is November). -/
def calculate_next_due_date (current_date : Date) (recurrence : Recurrence) :
    Except String Date :=
  match recurrence with
  | Recurrence.none => Except.error "Cannot calculate next date for non-recurring task"
  | Recurrence.daily => Except.ok (addDays current_date 1)
  | Recurrence.weekly => Except.ok (addDays current_date 7)
  | Recurrence.monthly =>
    let year := current_date.year
    let month := current_date.month + 1
    let year := if month > 12 then year + 1 else year
    let month := if month > 12 then 1 else month
    let day := current_date.day
    match mkDatetime year (month + 1) 1 with
    | Except.error e => Except.error e
    | Except.ok firstOfFollowing =>
      let last_day := (prevDay firstOfFollowing).day
      mkDatetime year month (min day last_day)

/-! ### Storage (storage.py) -/

/-- In-memory task storage: the task list and the id counter. -/
structure Storage where
  tasks : List Task
  next_id : Nat
deriving DecidableEq

/-- Fresh storage (`TaskStorage.__init__`): empty list, counter at 1. -/
def Storage.empty : Storage := ⟨[], 1⟩

/-- Model of the lookup loop in `get_by_id`: first task with the given id. -/
def findById (i : Nat) : List Task → Option Task
  | [] => Option.none
  | t :: ts => if t.id = i then some t else findById i ts

/-- Model of the replacement loop in `update`: replace the first task whose
id matches the new task's id. -/
def updateFirst (t : Task) : List Task → List Task
  | [] => []
  | u :: us => if u.id = t.id then t :: us else u :: updateFirst t us

/-- Model of the removal loop in `delete`: drop the first task with the id. -/
def removeFirst (i : Nat) : List Task → List Task
  | [] => []
  | u :: us => if u.id = i then us else u :: removeFirst i us

/-- `TaskStorage.add`: assign the next sequential id, bump the counter,
append.  Returns the stored task and the new storage. -/
def Storage.add (s : Storage) (task : Task) : Task × Storage :=
  let task := { task with id := s.next_id }
  (task, ⟨s.tasks ++ [task], s.next_id + 1⟩)

/-- `TaskStorage.get_by_id`. -/
def Storage.get_by_id (s : Storage) (i : Nat) : Option Task :=
  findById i s.tasks

/-- `TaskStorage.update`: returns whether a task with the id existed, and
the storage with the first matching record replaced. -/
def Storage.update (s : Storage) (t : Task) : Bool × Storage :=
  ((findById t.id s.tasks).isSome, ⟨updateFirst t s.tasks, s.next_id⟩)

/-- `TaskStorage.delete`: returns whether a task with the id existed, and
the storage with the first matching record removed. -/
def Storage.delete (s : Storage) (i : Nat) : Bool × Storage :=
  ((findById i s.tasks).isSome, ⟨removeFirst i s.tasks, s.next_id⟩)

/-- `TaskStorage.count`. -/
def Storage.count (s : Storage) : Nat :=
  s.tasks.length

/-! ### Validators (services.py)

Each validator takes the raw string and returns the normalized value or an
error, mirroring `ValidationError` / `ValueError` raises. -/

/-- `validate_title`: trim, reject empty and over-100-character titles. -/
def validate_title (title : String) : Except String String :=
  let cleaned := pyStrip title
  if cleaned = "" then Except.error "Title cannot be empty"
  else if strLen cleaned > 100 then Except.error "Title must be 100 characters or less"
  else Except.ok cleaned

/-- `validate_description`: trim, reject over-500-character descriptions. -/
def validate_description (description : String) : Except String String :=
  let cleaned := pyStrip description
  if strLen cleaned > 500 then Except.error "Description must be 500 characters or less"
  else Except.ok cleaned

/-- `validate_priority`: case-insensitive match against high/medium/low. -/
def validate_priority (priority_str : String) : Except String Priority :=
  let cleaned := casefold (pyStrip priority_str)
  if cleaned = "high" then Except.ok Priority.high
  else if cleaned = "medium" then Except.ok Priority.medium
  else if cleaned = "low" then Except.ok Priority.low
  else Except.error "Invalid priority. Must be one of: high, medium, low"

/-- `validate_category`: trim; empty means unset; reject length over 50. -/
def validate_category (category_str : String) : Except String (Option String) :=
  let cleaned := pyStrip category_str
  if cleaned = "" then Except.ok Option.none
  else if strLen cleaned > 50 then Except.error "Category must be 50 characters or less"
  else Except.ok (some cleaned)

/-- Model of Python `int()` on a date-field slice: a plain run of ASCII
digits.  (Python `int()` additionally accepts surrounding whitespace, a sign
and underscore separators; no claim depends on those exotic inputs.) -/
def pyInt? (cs : List Char) : Option Nat :=
  if cs.isEmpty then Option.none
  else if cs.all Char.isDigit then
    some (cs.foldl (fun n c => n * 10 + (c.toNat - 48)) 0)
  else Option.none

/-- `validate_due_date`: empty means unset; otherwise require the exact
YYYY-MM-DD shape, range-check month and day, then build the `datetime`
(which rejects impossible calendar dates such as Feb 31). -/
def validate_due_date (date_str : String) : Except String (Option Date) :=
  let cleaned := pyStrip date_str
  if cleaned = "" then Except.ok Option.none
  else if ¬ (strLen cleaned = 10 ∧ cleaned.data[4]? = some '-' ∧ cleaned.data[7]? = some '-') then
    Except.error "Invalid date format. Use YYYY-MM-DD."
  else
    match pyInt? (cleaned.data.take 4), pyInt? ((cleaned.data.drop 5).take 2),
        pyInt? ((cleaned.data.drop 8).take 2) with
    | some year, some month, some day =>
      if month < 1 ∨ month > 12 then Except.error "Invalid month. Must be 01-12."
      else if day < 1 ∨ day > 31 then Except.error "Invalid day. Must be 01-31."
      else (mkDatetime year month day).map some
    | _, _, _ => Except.error "Invalid date."

/-- `validate_recurrence`: case-insensitive match against
none/daily/weekly/monthly. -/
def validate_recurrence (recurrence_str : String) : Except String Recurrence :=
  let cleaned := casefold (pyStrip recurrence_str)
  if cleaned = "none" then Except.ok Recurrence.none
  else if cleaned = "daily" then Except.ok Recurrence.daily
  else if cleaned = "weekly" then Except.ok Recurrence.weekly
  else if cleaned = "monthly" then Except.ok Recurrence.monthly
  else Except.error "Invalid recurrence. Must be one of: none, daily, weekly, monthly"

/-! ### FilterState and filter setters (services.py) -/

/-- FilterState dataclass: status None=All / True=Completed / False=Pending,
optional priority, optional category substring. -/
structure FilterState where
  status : Option Bool
  priority : Option Priority
  category : Option String
deriving DecidableEq

/-- Initial filter state (all dimensions unset). -/
def FilterState.initial : FilterState := ⟨Option.none, Option.none, Option.none⟩

/-- `TaskService.set_filter_status`: recognizes all/pending/completed after
trim+casefold; anything else falls through the if/elif chain and leaves the
state untouched. -/
def set_filter_status (f : FilterState) (status : String) : FilterState :=
  let status_lower := casefold (pyStrip status)
  if status_lower = "all" then { f with status := Option.none }
  else if status_lower = "pending" then { f with status := some false }
  else if status_lower = "completed" then { f with status := some true }
  else f

/-- `TaskService.set_filter_priority`. -/
def set_filter_priority (f : FilterState) (priority : Priority) : FilterState :=
  { f with priority := some priority }

/-- `TaskService.set_filter_category`: trimmed; empty clears the filter. -/
def set_filter_category (f : FilterState) (category : String) : FilterState :=
  let cleaned := pyStrip category
  { f with category := if cleaned = "" then Option.none else some cleaned }

/-! ### Sorting by id (`get_all_tasks` uses `sorted(tasks, key=lambda t: t.id)`) -/

/-- Insert a task into an id-sorted list, before the first element with an
id greater than or equal to its own (stable insertion). -/
def insertById (t : Task) : List Task → List Task
  | [] => [t]
  | u :: us => if t.id ≤ u.id then t :: u :: us else u :: insertById t us

/-- Stable ascending sort by id — model of Python's stable `sorted` with
key `t.id`. -/
def sortById : List Task → List Task
  | [] => []
  | t :: ts => insertById t (sortById ts)

/-- `TaskService.get_all_tasks`: all tasks ordered by id.
(`ensure_task_compatibility` is the identity on dataclass-complete tasks and
is omitted.) -/
def get_all_tasks (s : Storage) : List Task :=
  sortById s.tasks

/-! ### Search and filter (services.py) -/

/-- The match test of `search_tasks`: the casefolded keyword occurs in the
casefolded title or description. -/
def search_matches (keyword_lower : String) (t : Task) : Bool :=
  strContains (casefold t.title) keyword_lower ||
    strContains (casefold t.description) keyword_lower

/-- `TaskService.search_tasks`: reject keywords that are empty after
trimming, otherwise filter the id-ordered task list by the match test. -/
def search_tasks (s : Storage) (keyword : String) : Except String (List Task) :=
  let cleaned := pyStrip keyword
  if cleaned = "" then Except.error "Keyword cannot be empty"
  else Except.ok ((get_all_tasks s).filter (search_matches (casefold cleaned)))

/-- The category test of `filter_tasks`: Python
`t.category and category_lower in t.category.casefold()` — both a `None`
category and an empty-string category are falsy and never match. -/
def categoryMatches (fcat : String) (t : Task) : Bool :=
  match t.category with
  | Option.none => false
  | some c => if c = "" then false else strContains (casefold c) (casefold fcat)

/-- `TaskService.filter_tasks`: apply the three optional filters in
sequence (AND semantics) to the id-ordered task list. -/
def filter_tasks (s : Storage) (f : FilterState) : List Task :=
  let tasks := get_all_tasks s
  let tasks := match f.status with
    | Option.none => tasks
    | some b => tasks.filter (fun t => t.is_completed == b)
  let tasks := match f.priority with
    | Option.none => tasks
    | some p => tasks.filter (fun t => t.priority == p)
  match f.category with
  | Option.none => tasks
  | some c => tasks.filter (categoryMatches c)

/-! ### Alphabetical sort (services.py `sort_alphabetically`) -/

/-- Strict code-point lexicographic order on character lists (Python string
`<`). -/
def lexLt : List Char → List Char → Bool
  | [], [] => false
  | [], _ :: _ => true
  | _ :: _, [] => false
  | a :: as, b :: bs => decide (a.toNat < b.toNat) || (a == b && lexLt as bs)

/-- Non-strict order on the sort key of `sort_alphabetically`: the Python
tuple `(t.title.casefold(), t.created_at)` compared ascending. -/
def alphaKeyLe (a b : Task) : Bool :=
  lexLt (casefold a.title).data (casefold b.title).data ||
    ((casefold a.title).data == (casefold b.title).data &&
      decide (a.created_at ≤ b.created_at))

/-- Stable insertion for `sort_alphabetically`. -/
def insertAlpha (t : Task) : List Task → List Task
  | [] => [t]
  | u :: us => if alphaKeyLe t u then t :: u :: us else u :: insertAlpha t us

/-- `TaskService.sort_alphabetically`: Python's stable `sorted` with key
`(t.title.casefold(), t.created_at)` and no `reverse` flag, i.e. the stable
ascending sort with respect to `alphaKeyLe`. -/
def sort_alphabetically : List Task → List Task
  | [] => []
  | t :: ts => insertAlpha t (sort_alphabetically ts)

/-! ### update_task (services.py lines 346-403)

The Python method fetches the stored task object and then, for each
supplied (non-`None`) argument, validates it and assigns the result to the
corresponding attribute of that object.  Because the object is the very
record storage holds, each assignment is immediately visible in storage;
a later validation failure leaves the earlier assignments in place.  The
embedding makes that aliasing explicit: each successful field step writes
the updated record back through `Storage.update`. -/

/-- A single attribute update of `update_task`: validate the raw string and
assign the result to one field. -/
abbrev FieldApply := Task → String → Except String Task

/-- `task.title = validate_title(title)`. -/
def titleApply : FieldApply := fun t v =>
  (validate_title v).map fun x => { t with title := x }

/-- `task.description = validate_description(description)`. -/
def descriptionApply : FieldApply := fun t v =>
  (validate_description v).map fun x => { t with description := x }

/-- `task.priority = validate_priority(priority_str)`. -/
def priorityApply : FieldApply := fun t v =>
  (validate_priority v).map fun x => { t with priority := x }

/-- `task.category = validate_category(category_str)`. -/
def categoryApply : FieldApply := fun t v =>
  (validate_category v).map fun x => { t with category := x }

/-- The due-date branch: an empty (after strip) string clears the due date,
anything else goes through `validate_due_date`. -/
def dueDateApply : FieldApply := fun t v =>
  if pyStrip v = "" then Except.ok { t with due_date := Option.none }
  else (validate_due_date v).map fun x => { t with due_date := x }

/-- `task.recurrence = validate_recurrence(recurrence_str)`. -/
def recurrenceApply : FieldApply := fun t v =>
  (validate_recurrence v).map fun x => { t with recurrence := x }

/-- The six optional-field steps of `update_task`, in source order. -/
def updateSteps (title description priority_str category_str due_date_str
    recurrence_str : Option String) : List (Option String × FieldApply) :=
  [(title, titleApply), (description, descriptionApply),
   (priority_str, priorityApply), (category_str, categoryApply),
   (due_date_str, dueDateApply), (recurrence_str, recurrenceApply)]

/-- Run the field steps over the aliased task object: a supplied field that
validates is assigned (and hence written back into storage at once); a
validation failure aborts with the storage as mutated so far. -/
def runFields : List (Option String × FieldApply) → Task → Storage →
    Except String Task × Storage
  | [], t, s => (Except.ok t, s)
  | (arg, ap) :: rest, t, s =>
    match arg with
    | Option.none => runFields rest t s
    | some v =>
      match ap t v with
      | Except.error e => (Except.error e, s)
      | Except.ok t' => runFields rest t' (s.update t').2

/-- The pure validation chain of the same steps (no storage). -/
def pureFields : List (Option String × FieldApply) → Task → Except String Task
  | [], t => Except.ok t
  | (arg, ap) :: rest, t =>
    match arg with
    | Option.none => pureFields rest t
    | some v =>
      match ap t v with
      | Except.error e => Except.error e
      | Except.ok t' => pureFields rest t'

/-- The task after applying the longest prefix of steps that validates:
the value the aliased stored object holds when a later step fails. -/
def truncApply : List (Option String × FieldApply) → Task → Task
  | [], t => t
  | (arg, ap) :: rest, t =>
    match arg with
    | Option.none => truncApply rest t
    | some v =>
      match ap t v with
      | Except.error _ => t
      | Except.ok t' => truncApply rest t'

/-- `TaskService.update_task`: `None` arguments mean keep the field; a
missing id returns `None` (no error); otherwise the six field steps run in
order on the aliased stored object, and on success the object is written
back once more (`self._storage.update(task)`). -/
def update_task (s : Storage) (i : Nat)
    (title description priority_str category_str due_date_str
      recurrence_str : Option String) :
    Except String (Option Task) × Storage :=
  match s.get_by_id i with
  | Option.none => (Except.ok Option.none, s)
  | some task =>
    match runFields (updateSteps title description priority_str category_str
        due_date_str recurrence_str) task s with
    | (Except.error e, s') => (Except.error e, s')
    | (Except.ok t, s') => (Except.ok (some t), (s'.update t).2)

/-! ### toggle_task (services.py lines 416-460) -/

/-- The exception raised at services.py line 439: the module imports only
`Task, Priority, Recurrence, ensure_task_compatibility, format_due_date,
is_overdue` from `todo.models` (line 7) and nothing else binds the name
`calculate_next_due_date`, so evaluating that statement raises `NameError`
before any date arithmetic happens. -/
def nameErrorNextDueDate : String :=
  "NameError: name calculate_next_due_date is not defined"

/-- `TaskService.toggle_task`.  `now` models `datetime.now()` (it is never
reached, see below).  Python tests
`is_completing and task.recurrence != NONE and task.due_date is not None`;
the embedding matches on the due date first, which evaluates the same pure
conjunction.  On the successor branch the source immediately raises
`NameError` (services.py never imports `calculate_next_due_date`, see
`nameErrorNextDueDate`) with storage untouched and the completion flag not
yet flipped; on every other path the flag is flipped and written back with
no successor. -/
def toggle_task (s : Storage) (i : Nat) (_now : Nat) :
    Except String (Option Task × Option Task) × Storage :=
  match s.get_by_id i with
  | Option.none => (Except.ok (Option.none, Option.none), s)
  | some task =>
    let is_completing := !task.is_completed
    match task.due_date with
    | some _ =>
      if is_completing && !(task.recurrence = Recurrence.none) then
        (Except.error nameErrorNextDueDate, s)
      else
        let task' := { task with is_completed := !task.is_completed }
        (Except.ok (some task', Option.none), (s.update task').2)
    | Option.none =>
      let task' := { task with is_completed := !task.is_completed }
      (Except.ok (some task', Option.none), (s.update task').2)

/-! ### Operation sequences over one storage instance (for the id claim) -/

/-- An externally driven storage operation: add a task or delete by id. -/
inductive Op where
  | add (t : Task)
  | del (i : Nat)

/-- Run a sequence of operations, collecting the ids assigned to the added
tasks in order. -/
def runOps : Storage → List Op → Storage × List Nat
  | s, [] => (s, [])
  | s, Op.add t :: rest =>
    let (t', s') := s.add t
    let (s'', ids) := runOps s' rest
    (s'', t'.id :: ids)
  | s, Op.del i :: rest => runOps (s.delete i).2 rest

/-- Number of add operations in a sequence. -/
def countAdds : List Op → Nat
  | [] => 0
  | Op.add _ :: rest => countAdds rest + 1
  | Op.del _ :: rest => countAdds rest

/-! ### Lemmas about the storage list operations -/

theorem findById_some_id {i : Nat} {t : Task} :
    ∀ {l : List Task}, findById i l = some t → t.id = i
  | [], h => by simp [findById] at h
  | u :: us, h => by
    by_cases hu : u.id = i
    · simp [findById, hu] at h
      rw [← h]; exact hu
    · simp [findById, hu] at h
      exact findById_some_id h

theorem updateFirst_self {i : Nat} {t : Task} (hti : t.id = i) :
    ∀ {l : List Task}, findById i l = some t → updateFirst t l = l
  | [], h => by simp [findById] at h
  | u :: us, h => by
    by_cases hu : u.id = i
    · simp [findById, hu] at h
      simp [updateFirst, hu, hti, h]
    · simp [findById, hu] at h
      simp [updateFirst, hti, hu, updateFirst_self hti h]

theorem findById_updateFirst {i : Nat} {t t' : Task} (hti : t'.id = i) :
    ∀ {l : List Task}, findById i l = some t →
      findById i (updateFirst t' l) = some t'
  | [], h => by simp [findById] at h
  | u :: us, h => by
    by_cases hu : u.id = i
    · simp [updateFirst, hu, hti, findById]
    · simp [findById, hu] at h
      simp [updateFirst, hti, hu, findById, findById_updateFirst hti h]

theorem updateFirst_updateFirst {i : Nat} {t t1 t2 : Task}
    (h1 : t1.id = i) (h2 : t2.id = i) :
    ∀ {l : List Task}, findById i l = some t →
      updateFirst t2 (updateFirst t1 l) = updateFirst t2 l
  | [], h => by simp [findById] at h
  | u :: us, h => by
    by_cases hu : u.id = i
    · simp [updateFirst, hu, h1, h2]
    · simp [findById, hu] at h
      simp [updateFirst, hu, h1, h2,
        updateFirst_updateFirst h1 h2 h]

theorem Storage.update_self {s : Storage} {i : Nat} {t : Task}
    (h : s.get_by_id i = some t) : (s.update t).2 = s := by
  have hti : t.id = i := findById_some_id h
  cases s with
  | mk tasks next_id =>
    simp [Storage.get_by_id] at h
    simp [Storage.update]
    exact updateFirst_self hti h

theorem Storage.get_by_id_update {s : Storage} {i : Nat} {t t' : Task}
    (h : s.get_by_id i = some t) (hti : t'.id = i) :
    ((s.update t').2).get_by_id i = some t' := by
  cases s with
  | mk tasks next_id =>
    simp [Storage.update, Storage.get_by_id] at h ⊢
    exact findById_updateFirst hti h

theorem Storage.update_update {s : Storage} {i : Nat} {t t1 t2 : Task}
    (h : s.get_by_id i = some t) (h1 : t1.id = i) (h2 : t2.id = i) :
    ((s.update t1).2.update t2).2 = (s.update t2).2 := by
  cases s with
  | mk tasks next_id =>
    simp [Storage.update]
    exact updateFirst_updateFirst h1 h2 h

theorem Storage.get_by_id_some_id {s : Storage} {i : Nat} {t : Task}
    (h : s.get_by_id i = some t) : t.id = i :=
  findById_some_id h

/-! ### Shape of the update_task field steps -/

theorem titleApply_ok {t t' : Task} {v : String}
    (h : titleApply t v = Except.ok t') : ∃ x, t' = { t with title := x } := by
  unfold titleApply at h
  cases hv : validate_title v with
  | error e => rw [hv] at h; simp [Except.map] at h
  | ok x => rw [hv] at h; simp [Except.map] at h; exact ⟨x, h.symm⟩

theorem descriptionApply_ok {t t' : Task} {v : String}
    (h : descriptionApply t v = Except.ok t') :
    ∃ x, t' = { t with description := x } := by
  unfold descriptionApply at h
  cases hv : validate_description v with
  | error e => rw [hv] at h; simp [Except.map] at h
  | ok x => rw [hv] at h; simp [Except.map] at h; exact ⟨x, h.symm⟩

theorem priorityApply_ok {t t' : Task} {v : String}
    (h : priorityApply t v = Except.ok t') :
    ∃ x, t' = { t with priority := x } := by
  unfold priorityApply at h
  cases hv : validate_priority v with
  | error e => rw [hv] at h; simp [Except.map] at h
  | ok x => rw [hv] at h; simp [Except.map] at h; exact ⟨x, h.symm⟩

theorem categoryApply_ok {t t' : Task} {v : String}
    (h : categoryApply t v = Except.ok t') :
    ∃ x, t' = { t with category := x } := by
  unfold categoryApply at h
  cases hv : validate_category v with
  | error e => rw [hv] at h; simp [Except.map] at h
  | ok x => rw [hv] at h; simp [Except.map] at h; exact ⟨x, h.symm⟩

theorem dueDateApply_ok {t t' : Task} {v : String}
    (h : dueDateApply t v = Except.ok t') :
    ∃ x, t' = { t with due_date := x } := by
  unfold dueDateApply at h
  by_cases hw : pyStrip v = ""
  · rw [if_pos hw] at h
    simp at h
    exact ⟨Option.none, h.symm⟩
  · rw [if_neg hw] at h
    cases hv : validate_due_date v with
    | error e => rw [hv] at h; simp [Except.map] at h
    | ok x => rw [hv] at h; simp [Except.map] at h; exact ⟨x, h.symm⟩

theorem recurrenceApply_ok {t t' : Task} {v : String}
    (h : recurrenceApply t v = Except.ok t') :
    ∃ x, t' = { t with recurrence := x } := by
  unfold recurrenceApply at h
  cases hv : validate_recurrence v with
  | error e => rw [hv] at h; simp [Except.map] at h
  | ok x => rw [hv] at h; simp [Except.map] at h; exact ⟨x, h.symm⟩

/-- No field step of `update_task` ever changes the task's id. -/
theorem updateSteps_id (a b c d e f : Option String) :
    ∀ p ∈ updateSteps a b c d e f, ∀ (u : Task) (v : String) (u' : Task),
      p.1 = some v → p.2 u v = Except.ok u' → u'.id = u.id := by
  intro p hp u v u' hv h
  simp [updateSteps] at hp
  rcases hp with rfl | rfl | rfl | rfl | rfl | rfl
  · obtain ⟨x, rfl⟩ := titleApply_ok h; rfl
  · obtain ⟨x, rfl⟩ := descriptionApply_ok h; rfl
  · obtain ⟨x, rfl⟩ := priorityApply_ok h; rfl
  · obtain ⟨x, rfl⟩ := categoryApply_ok h; rfl
  · obtain ⟨x, rfl⟩ := dueDateApply_ok h; rfl
  · obtain ⟨x, rfl⟩ := recurrenceApply_ok h; rfl

/-! ### The pure chain versus the aliased run -/

/-- Any property preserved by every supplied step holds for the outcome of
the pure chain and for every longest-valid-prefix value. -/
theorem pureFields_preserve (P : Task → Prop) :
    ∀ (steps : List (Option String × FieldApply)),
      (∀ p ∈ steps, ∀ (u : Task) (v : String) (u' : Task),
        p.1 = some v → p.2 u v = Except.ok u' → P u → P u') →
      ∀ t : Task, P t →
        (∀ u, pureFields steps t = Except.ok u → P u) ∧ P (truncApply steps t) := by
  intro steps
  induction steps with
  | nil =>
    intro _ t ht
    refine ⟨fun u hu => ?_, ht⟩
    simp [pureFields] at hu
    exact hu ▸ ht
  | cons hd rest ih =>
    intro H t ht
    obtain ⟨arg, ap⟩ := hd
    have Hrest := fun p hp => H p (List.mem_cons_of_mem _ hp)
    cases arg with
    | none =>
      simpa [pureFields, truncApply] using ih Hrest t ht
    | some v =>
      cases hav : ap t v with
      | error e =>
        refine ⟨fun u hu => ?_, ?_⟩
        · simp [pureFields, hav] at hu
        · simpa [truncApply, hav] using ht
      | ok t' =>
        have ht' : P t' := H (some v, ap) (List.mem_cons_self _ _) t v t' rfl hav ht
        have hrest := ih Hrest t' ht'
        refine ⟨fun u hu => ?_, ?_⟩
        · simp [pureFields, hav] at hu
          exact hrest.1 u hu
        · simpa [truncApply, hav] using hrest.2

/-- The id is preserved along the pure chain (packaged instance of
`pureFields_preserve`). -/
theorem pureFields_id {steps : List (Option String × FieldApply)} {i : Nat}
    (Hid : ∀ p ∈ steps, ∀ (u : Task) (v : String) (u' : Task),
      p.1 = some v → p.2 u v = Except.ok u' → u'.id = u.id)
    {t : Task} (ht : t.id = i) :
    (∀ u, pureFields steps t = Except.ok u → u.id = i) ∧
      (truncApply steps t).id = i :=
  pureFields_preserve (fun u => u.id = i) steps
    (fun p hp u v u' hv hok hu => by
      show u'.id = i
      rw [Hid p hp u v u' hv hok]; exact hu) t ht

/-- Central correspondence, success case: when the pure chain validates,
running the field steps on the aliased stored object succeeds with the
same task and the storage ends at a single write of it. -/
theorem runFields_ok :
    ∀ (steps : List (Option String × FieldApply)),
      (∀ p ∈ steps, ∀ (u : Task) (v : String) (u' : Task),
        p.1 = some v → p.2 u v = Except.ok u' → u'.id = u.id) →
      ∀ (t u : Task) (s : Storage) (i : Nat), s.get_by_id i = some t →
        pureFields steps t = Except.ok u →
        runFields steps t s = (Except.ok u, (s.update u).2) := by
  intro steps
  induction steps with
  | nil =>
    intro _ t u s i h hp
    simp [pureFields] at hp
    subst hp
    simp [runFields, Storage.update_self h]
  | cons hd rest ih =>
    intro H t u s i h hp
    obtain ⟨arg, ap⟩ := hd
    have Hrest := fun p hp => H p (List.mem_cons_of_mem _ hp)
    cases arg with
    | none =>
      simp only [pureFields] at hp
      simp only [runFields]
      exact ih Hrest t u s i h hp
    | some v =>
      cases hav : ap t v with
      | error e => simp [pureFields, hav] at hp
      | ok t' =>
        simp only [pureFields, hav] at hp
        have hti : t.id = i := Storage.get_by_id_some_id h
        have hid' : t'.id = i := by
          rw [H (some v, ap) (List.mem_cons_self _ _) t v t' rfl hav]; exact hti
        have h2 : ((s.update t').2).get_by_id i = some t' :=
          Storage.get_by_id_update h hid'
        have hu : u.id = i := (pureFields_id Hrest hid').1 u hp
        simp only [runFields, hav]
        rw [ih Hrest t' u (s.update t').2 i h2 hp,
          Storage.update_update h hid' hu]

/-- Central correspondence, failure case: when the pure chain fails,
running the field steps fails with the same error and the storage ends at
a single write of the longest-valid-prefix task. -/
theorem runFields_err :
    ∀ (steps : List (Option String × FieldApply)),
      (∀ p ∈ steps, ∀ (u : Task) (v : String) (u' : Task),
        p.1 = some v → p.2 u v = Except.ok u' → u'.id = u.id) →
      ∀ (t : Task) (e : String) (s : Storage) (i : Nat), s.get_by_id i = some t →
        pureFields steps t = Except.error e →
        runFields steps t s = (Except.error e, (s.update (truncApply steps t)).2) := by
  intro steps
  induction steps with
  | nil =>
    intro _ t e s i h hp
    simp [pureFields] at hp
  | cons hd rest ih =>
    intro H t e s i h hp
    obtain ⟨arg, ap⟩ := hd
    have Hrest := fun p hp => H p (List.mem_cons_of_mem _ hp)
    cases arg with
    | none =>
      simp only [pureFields] at hp
      simp only [runFields, truncApply]
      exact ih Hrest t e s i h hp
    | some v =>
      cases hav : ap t v with
      | error e2 =>
        simp only [pureFields, hav] at hp
        simp only [runFields, truncApply, hav]
        rw [Storage.update_self h]
        have hpe : e2 = e := by simpa using hp
        rw [hpe]
      | ok t' =>
        simp only [pureFields, hav] at hp
        have hti : t.id = i := Storage.get_by_id_some_id h
        have hid' : t'.id = i := by
          rw [H (some v, ap) (List.mem_cons_self _ _) t v t' rfl hav]; exact hti
        have h2 : ((s.update t').2).get_by_id i = some t' :=
          Storage.get_by_id_update h hid'
        have htr : (truncApply rest t').id = i := (pureFields_id Hrest hid').2
        simp only [runFields, truncApply, hav]
        rw [ih Hrest t' e (s.update t').2 i h2 hp,
          Storage.update_update h hid' htr]

/-- `update_task` on an existing task, success case: the result is the
fully validated task, and the storage holds exactly one write of it. -/
theorem update_task_ok {s : Storage} {i : Nat} {t0 u : Task}
    (a b c d e f : Option String) (h : s.get_by_id i = some t0)
    (hp : pureFields (updateSteps a b c d e f) t0 = Except.ok u) :
    update_task s i a b c d e f = (Except.ok (some u), (s.update u).2) := by
  have hu : u.id = i :=
    (pureFields_id (updateSteps_id a b c d e f) (Storage.get_by_id_some_id h)).1 u hp
  have hrun := runFields_ok (updateSteps a b c d e f) (updateSteps_id a b c d e f)
    t0 u s i h hp
  simp only [update_task, h, hrun]
  rw [Storage.update_update h hu hu]

/-- `update_task` on an existing task, failure case: the error propagates
and the storage holds exactly one write of the longest-valid-prefix task —
the mutations made before the failing field are *not* rolled back. -/
theorem update_task_err {s : Storage} {i : Nat} {t0 : Task} {e : String}
    (a b c d e' f : Option String) (h : s.get_by_id i = some t0)
    (hp : pureFields (updateSteps a b c d e' f) t0 = Except.error e) :
    update_task s i a b c d e' f =
      (Except.error e, (s.update (truncApply (updateSteps a b c d e' f) t0)).2) := by
  have hrun := runFields_err (updateSteps a b c d e' f) (updateSteps_id a b c d e' f)
    t0 e s i h hp
  simp only [update_task, h, hrun]

/-- What is true of the stored record after any `update_task` call, for any
property preserved by every supplied field step. -/
theorem update_task_preserves (P : Task → Prop) {s : Storage} {i : Nat} {t0 : Task}
    (a b c d e f : Option String) (h : s.get_by_id i = some t0)
    (Hp : ∀ p ∈ updateSteps a b c d e f, ∀ (u : Task) (v : String) (u' : Task),
      p.1 = some v → p.2 u v = Except.ok u' → P u → P u')
    (hP : P t0) {r' : Except String (Option Task)} {s' : Storage}
    (hrun : update_task s i a b c d e f = (r', s')) :
    ∃ t', s'.get_by_id i = some t' ∧ P t' := by
  cases hp : pureFields (updateSteps a b c d e f) t0 with
  | ok u =>
    rw [update_task_ok a b c d e f h hp] at hrun
    injection hrun with h1 h2
    have hu : u.id = i :=
      (pureFields_id (updateSteps_id a b c d e f) (Storage.get_by_id_some_id h)).1 u hp
    refine ⟨u, ?_, (pureFields_preserve P _ Hp t0 hP).1 u hp⟩
    rw [← h2]
    exact Storage.get_by_id_update h hu
  | error e2 =>
    rw [update_task_err a b c d e f h hp] at hrun
    injection hrun with h1 h2
    have htr : (truncApply (updateSteps a b c d e f) t0).id = i :=
      (pureFields_id (updateSteps_id a b c d e f) (Storage.get_by_id_some_id h)).2
    refine ⟨truncApply (updateSteps a b c d e f) t0, ?_,
      (pureFields_preserve P _ Hp t0 hP).2⟩
    rw [← h2]
    exact Storage.get_by_id_update h htr

/-! ### A field whose argument is None is never touched -/

theorem updateSteps_keep_title (b c d e f : Option String) (z : String) :
    ∀ p ∈ updateSteps Option.none b c d e f, ∀ (u : Task) (v : String) (u' : Task),
      p.1 = some v → p.2 u v = Except.ok u' → u.title = z → u'.title = z := by
  intro p hp u v u' hv hok hz
  simp [updateSteps] at hp
  rcases hp with rfl | rfl | rfl | rfl | rfl | rfl
  · simp at hv
  · obtain ⟨x, rfl⟩ := descriptionApply_ok hok; simpa using hz
  · obtain ⟨x, rfl⟩ := priorityApply_ok hok; simpa using hz
  · obtain ⟨x, rfl⟩ := categoryApply_ok hok; simpa using hz
  · obtain ⟨x, rfl⟩ := dueDateApply_ok hok; simpa using hz
  · obtain ⟨x, rfl⟩ := recurrenceApply_ok hok; simpa using hz

theorem updateSteps_keep_description (a c d e f : Option String) (z : String) :
    ∀ p ∈ updateSteps a Option.none c d e f, ∀ (u : Task) (v : String) (u' : Task),
      p.1 = some v → p.2 u v = Except.ok u' → u.description = z → u'.description = z := by
  intro p hp u v u' hv hok hz
  simp [updateSteps] at hp
  rcases hp with rfl | rfl | rfl | rfl | rfl | rfl
  · obtain ⟨x, rfl⟩ := titleApply_ok hok; simpa using hz
  · simp at hv
  · obtain ⟨x, rfl⟩ := priorityApply_ok hok; simpa using hz
  · obtain ⟨x, rfl⟩ := categoryApply_ok hok; simpa using hz
  · obtain ⟨x, rfl⟩ := dueDateApply_ok hok; simpa using hz
  · obtain ⟨x, rfl⟩ := recurrenceApply_ok hok; simpa using hz

theorem updateSteps_keep_priority (a b d e f : Option String) (z : Priority) :
    ∀ p ∈ updateSteps a b Option.none d e f, ∀ (u : Task) (v : String) (u' : Task),
      p.1 = some v → p.2 u v = Except.ok u' → u.priority = z → u'.priority = z := by
  intro p hp u v u' hv hok hz
  simp [updateSteps] at hp
  rcases hp with rfl | rfl | rfl | rfl | rfl | rfl
  · obtain ⟨x, rfl⟩ := titleApply_ok hok; simpa using hz
  · obtain ⟨x, rfl⟩ := descriptionApply_ok hok; simpa using hz
  · simp at hv
  · obtain ⟨x, rfl⟩ := categoryApply_ok hok; simpa using hz
  · obtain ⟨x, rfl⟩ := dueDateApply_ok hok; simpa using hz
  · obtain ⟨x, rfl⟩ := recurrenceApply_ok hok; simpa using hz

theorem updateSteps_keep_category (a b c e f : Option String) (z : Option String) :
    ∀ p ∈ updateSteps a b c Option.none e f, ∀ (u : Task) (v : String) (u' : Task),
      p.1 = some v → p.2 u v = Except.ok u' → u.category = z → u'.category = z := by
  intro p hp u v u' hv hok hz
  simp [updateSteps] at hp
  rcases hp with rfl | rfl | rfl | rfl | rfl | rfl
  · obtain ⟨x, rfl⟩ := titleApply_ok hok; simpa using hz
  · obtain ⟨x, rfl⟩ := descriptionApply_ok hok; simpa using hz
  · obtain ⟨x, rfl⟩ := priorityApply_ok hok; simpa using hz
  · simp at hv
  · obtain ⟨x, rfl⟩ := dueDateApply_ok hok; simpa using hz
  · obtain ⟨x, rfl⟩ := recurrenceApply_ok hok; simpa using hz

theorem updateSteps_keep_due_date (a b c d f : Option String) (z : Option Date) :
    ∀ p ∈ updateSteps a b c d Option.none f, ∀ (u : Task) (v : String) (u' : Task),
      p.1 = some v → p.2 u v = Except.ok u' → u.due_date = z → u'.due_date = z := by
  intro p hp u v u' hv hok hz
  simp [updateSteps] at hp
  rcases hp with rfl | rfl | rfl | rfl | rfl | rfl
  · obtain ⟨x, rfl⟩ := titleApply_ok hok; simpa using hz
  · obtain ⟨x, rfl⟩ := descriptionApply_ok hok; simpa using hz
  · obtain ⟨x, rfl⟩ := priorityApply_ok hok; simpa using hz
  · obtain ⟨x, rfl⟩ := categoryApply_ok hok; simpa using hz
  · simp at hv
  · obtain ⟨x, rfl⟩ := recurrenceApply_ok hok; simpa using hz

theorem updateSteps_keep_recurrence (a b c d e : Option String) (z : Recurrence) :
    ∀ p ∈ updateSteps a b c d e Option.none, ∀ (u : Task) (v : String) (u' : Task),
      p.1 = some v → p.2 u v = Except.ok u' → u.recurrence = z → u'.recurrence = z := by
  intro p hp u v u' hv hok hz
  simp [updateSteps] at hp
  rcases hp with rfl | rfl | rfl | rfl | rfl | rfl
  · obtain ⟨x, rfl⟩ := titleApply_ok hok; simpa using hz
  · obtain ⟨x, rfl⟩ := descriptionApply_ok hok; simpa using hz
  · obtain ⟨x, rfl⟩ := priorityApply_ok hok; simpa using hz
  · obtain ⟨x, rfl⟩ := categoryApply_ok hok; simpa using hz
  · obtain ⟨x, rfl⟩ := dueDateApply_ok hok; simpa using hz
  · simp at hv

/-! ### Claim C2: update_task is not atomic on validation failure -/

/-- A stored task, title "Old title", with id 1. -/
def c2task : Task :=
  ⟨1, "Old title", "", false, 0, Priority.medium, Option.none, Option.none,
    Recurrence.none, Option.none⟩

/-- Storage holding just `c2task`. -/
def c2store : Storage := ⟨[c2task], 2⟩

/-- C2 counterexample: updating task 1 with a valid new title and an
invalid priority raises the validation error for the priority, yet the
stored task has already been renamed — the call mutated state before
detecting the failure, so the claim as stated is false. -/
theorem update_task_not_atomic :
    (update_task c2store 1 (some "New title") Option.none (some "bogus")
        Option.none Option.none Option.none).1 =
      Except.error "Invalid priority. Must be one of: high, medium, low" ∧
    ((update_task c2store 1 (some "New title") Option.none (some "bogus")
        Option.none Option.none Option.none).2).get_by_id 1 =
      some { c2task with title := "New title" } ∧
    ({ c2task with title := "New title" } : Task) ≠ c2task := by
  refine ⟨rfl, rfl, by decide⟩

/-- C2 (amended): when `update_task` raises a validation error, the stored
task is the original with exactly the supplied fields that precede the
first failing one applied (the longest valid prefix, in the order title,
description, priority, category, due date, recurrence); the failing field
and everything after it are unchanged, and the whole storage equals a
single write of that prefix-updated record. -/
theorem update_task_error_partial (s : Storage) (i : Nat) (t0 : Task)
    (a b c d e f : Option String) (err : String) (s' : Storage)
    (h : s.get_by_id i = some t0)
    (herr : update_task s i a b c d e f = (Except.error err, s')) :
    pureFields (updateSteps a b c d e f) t0 = Except.error err ∧
    s' = (s.update (truncApply (updateSteps a b c d e f) t0)).2 ∧
    s'.get_by_id i = some (truncApply (updateSteps a b c d e f) t0) := by
  cases hp : pureFields (updateSteps a b c d e f) t0 with
  | ok u =>
    rw [update_task_ok a b c d e f h hp] at herr
    injection herr with h1 h2
    simp at h1
  | error e2 =>
    rw [update_task_err a b c d e f h hp] at herr
    injection herr with h1 h2
    have he : e2 = err := by simpa using h1
    subst he
    have htr : (truncApply (updateSteps a b c d e f) t0).id = i :=
      (pureFields_id (updateSteps_id a b c d e f) (Storage.get_by_id_some_id h)).2
    refine ⟨rfl, h2.symm, ?_⟩
    rw [← h2]
    exact Storage.get_by_id_update h htr

/-- Witness for C2 at the concrete counterexample input. -/
theorem update_task_error_partial_witness :
    c2store.get_by_id 1 = some c2task ∧
    (pureFields (updateSteps (some "New title") Option.none (some "bogus")
        Option.none Option.none Option.none) c2task =
      Except.error "Invalid priority. Must be one of: high, medium, low" ∧
    (update_task c2store 1 (some "New title") Option.none (some "bogus")
        Option.none Option.none Option.none).2 =
      (c2store.update (truncApply (updateSteps (some "New title") Option.none
        (some "bogus") Option.none Option.none Option.none) c2task)).2 ∧
    ((update_task c2store 1 (some "New title") Option.none (some "bogus")
        Option.none Option.none Option.none).2).get_by_id 1 =
      some (truncApply (updateSteps (some "New title") Option.none (some "bogus")
        Option.none Option.none Option.none) c2task)) :=
  ⟨rfl, update_task_error_partial c2store 1 c2task
    (some "New title") Option.none (some "bogus") Option.none Option.none Option.none
    "Invalid priority. Must be one of: high, medium, low" _ rfl rfl⟩

/-! ### Claim C5: keep versus clear semantics of update_task -/

/-- The pure chain splits over list append. -/
theorem pureFields_append :
    ∀ (l1 l2 : List (Option String × FieldApply)) (t : Task),
      pureFields (l1 ++ l2) t =
        Except.bind (pureFields l1 t) (fun t' => pureFields l2 t') := by
  intro l1
  induction l1 with
  | nil => intro l2 t; simp [pureFields, Except.bind]
  | cons hd rest ih =>
    intro l2 t
    obtain ⟨arg, ap⟩ := hd
    cases arg with
    | none => simpa [pureFields] using ih l2 t
    | some v =>
      cases hav : ap t v with
      | error e => simp [pureFields, hav, Except.bind]
      | ok t' => simpa [pureFields, hav] using ih l2 t'

/-- C5: `None` arguments leave their fields untouched (title, description,
priority, category, due date, recurrence — whatever the outcome of the
call), while a due-date argument that is empty after trimming clears the
stored due date on success.  Keep and clear are therefore distinguishable. -/
theorem update_task_keep_and_clear (s : Storage) (i : Nat) (t0 : Task)
    (h : s.get_by_id i = some t0) :
    (∀ b c d e f r' s', update_task s i Option.none b c d e f = (r', s') →
      ∃ t', s'.get_by_id i = some t' ∧ t'.title = t0.title) ∧
    (∀ a c d e f r' s', update_task s i a Option.none c d e f = (r', s') →
      ∃ t', s'.get_by_id i = some t' ∧ t'.description = t0.description) ∧
    (∀ a b d e f r' s', update_task s i a b Option.none d e f = (r', s') →
      ∃ t', s'.get_by_id i = some t' ∧ t'.priority = t0.priority) ∧
    (∀ a b c e f r' s', update_task s i a b c Option.none e f = (r', s') →
      ∃ t', s'.get_by_id i = some t' ∧ t'.category = t0.category) ∧
    (∀ a b c d f r' s', update_task s i a b c d Option.none f = (r', s') →
      ∃ t', s'.get_by_id i = some t' ∧ t'.due_date = t0.due_date) ∧
    (∀ a b c d e r' s', update_task s i a b c d e Option.none = (r', s') →
      ∃ t', s'.get_by_id i = some t' ∧ t'.recurrence = t0.recurrence) ∧
    (∀ a b c d f w t s', pyStrip w = "" →
      update_task s i a b c d (some w) f = (Except.ok (some t), s') →
      t.due_date = Option.none ∧ s'.get_by_id i = some t) := by
  refine ⟨?_, ?_, ?_, ?_, ?_, ?_, ?_⟩
  · intro b c d e f r' s' hrun
    exact update_task_preserves (fun u => u.title = t0.title) _ _ _ _ _ _ h
      (updateSteps_keep_title b c d e f t0.title) rfl hrun
  · intro a c d e f r' s' hrun
    exact update_task_preserves (fun u => u.description = t0.description) _ _ _ _ _ _ h
      (updateSteps_keep_description a c d e f t0.description) rfl hrun
  · intro a b d e f r' s' hrun
    exact update_task_preserves (fun u => u.priority = t0.priority) _ _ _ _ _ _ h
      (updateSteps_keep_priority a b d e f t0.priority) rfl hrun
  · intro a b c e f r' s' hrun
    exact update_task_preserves (fun u => u.category = t0.category) _ _ _ _ _ _ h
      (updateSteps_keep_category a b c e f t0.category) rfl hrun
  · intro a b c d f r' s' hrun
    exact update_task_preserves (fun u => u.due_date = t0.due_date) _ _ _ _ _ _ h
      (updateSteps_keep_due_date a b c d f t0.due_date) rfl hrun
  · intro a b c d e r' s' hrun
    exact update_task_preserves (fun u => u.recurrence = t0.recurrence) _ _ _ _ _ _ h
      (updateSteps_keep_recurrence a b c d e t0.recurrence) rfl hrun
  · intro a b c d f w t s' hw hrun
    cases hp : pureFields (updateSteps a b c d (some w) f) t0 with
    | error e2 =>
      rw [update_task_err a b c d (some w) f h hp] at hrun
      injection hrun with h1 h2
      simp at h1
    | ok u =>
      rw [update_task_ok a b c d (some w) f h hp] at hrun
      injection hrun with h1 h2
      have hut : u = t := by simpa using h1
      subst hut
      have hu : u.id = i :=
        (pureFields_id (updateSteps_id a b c d (some w) f)
          (Storage.get_by_id_some_id h)).1 u hp
      have hsplit : updateSteps a b c d (some w) f =
          [(a, titleApply), (b, descriptionApply), (c, priorityApply),
            (d, categoryApply)] ++ [(some w, dueDateApply), (f, recurrenceApply)] := rfl
      rw [hsplit, pureFields_append] at hp
      have hdue : u.due_date = Option.none := by
        cases hf : pureFields [(a, titleApply), (b, descriptionApply),
            (c, priorityApply), (d, categoryApply)] t0 with
        | error e3 => rw [hf] at hp; simp [Except.bind] at hp
        | ok t4 =>
          rw [hf] at hp
          simp only [Except.bind] at hp
          have hstep : dueDateApply t4 w =
              Except.ok { t4 with due_date := Option.none } := by
            unfold dueDateApply
            rw [if_pos hw]
          cases f with
          | none =>
            simp only [pureFields, hstep] at hp
            have he : ({ t4 with due_date := Option.none } : Task) = u := by
              simpa using hp
            rw [← he]
          | some v =>
            cases hr : recurrenceApply { t4 with due_date := Option.none } v with
            | error e4 =>
              simp only [pureFields, hstep, hr] at hp
              exact absurd hp (by simp)
            | ok t6 =>
              simp only [pureFields, hstep, hr] at hp
              obtain ⟨x, hx⟩ := recurrenceApply_ok hr
              have he : t6 = u := by simpa using hp
              rw [← he, hx]
      refine ⟨hdue, ?_⟩
      rw [← h2]
      exact Storage.get_by_id_update h hu

/-- A stored task with a set due date, used in the C5 witness. -/
def c5task : Task :=
  ⟨1, "Pay bill", "", false, 0, Priority.medium, Option.none,
    some ⟨2025, 3, 1⟩, Recurrence.none, Option.none⟩

/-- Storage holding just `c5task`. -/
def c5store : Storage := ⟨[c5task], 2⟩

/-- Witness for C5 at concrete inputs: omitting the due date keeps it, and
an explicitly blank due-date string clears it. -/
theorem update_task_keep_and_clear_witness :
    c5store.get_by_id 1 = some c5task ∧
    (∃ t', ((update_task c5store 1 (some "Pay the bill") Option.none Option.none
        Option.none Option.none Option.none).2).get_by_id 1 = some t' ∧
      t'.due_date = c5task.due_date) ∧
    ((update_task c5store 1 Option.none Option.none Option.none Option.none
        (some "  ") Option.none).1 =
      Except.ok (some { c5task with due_date := Option.none }) ∧
    { c5task with due_date := Option.none }.due_date = Option.none) := by
  refine ⟨rfl, ?_, ?_, rfl⟩
  · exact (update_task_keep_and_clear c5store 1 c5task rfl).2.2.2.2.1
      (some "Pay the bill") Option.none Option.none Option.none Option.none _ _ rfl
  · rfl

/-! ### Id assignment across operation sequences (claim C3) -/

theorem runOps_ids :
    ∀ (ops : List Op) (s : Storage),
      (runOps s ops).2 = List.range' s.next_id (countAdds ops)
  | [], s => by simp [runOps, countAdds]
  | Op.add t :: rest, s => by
    simp [runOps, countAdds, Storage.add, List.range'_succ]
    exact runOps_ids rest _
  | Op.del i :: rest, s => by
    simp [runOps, countAdds, Storage.delete]
    exact runOps_ids rest _

theorem pairwise_lt_range' : ∀ (n a : Nat), List.Pairwise (· < ·) (List.range' a n)
  | 0, _ => List.Pairwise.nil
  | n + 1, a => by
    rw [List.range'_succ]
    refine List.Pairwise.cons (fun b hb => ?_) (pairwise_lt_range' n (a + 1))
    have := List.mem_range'_1.mp hb
    omega

/-- C3: over any sequence of add and delete operations on one storage
instance started empty, the ids handed out to the added tasks are exactly
1, 2, 3, … in order — strictly increasing from 1, and never reused even
after deletions. -/
theorem storage_ids_strictly_increasing (ops : List Op) :
    (runOps Storage.empty ops).2 = List.range' 1 (countAdds ops) ∧
    List.Pairwise (· < ·) ((runOps Storage.empty ops).2) := by
  have h := runOps_ids ops Storage.empty
  exact ⟨h, h ▸ pairwise_lt_range' (countAdds ops) 1⟩

/-! ### Ordering lemmas for the id-sorted task list -/

theorem mem_insertById (t : Task) :
    ∀ (l : List Task) (u : Task), u ∈ insertById t l ↔ u = t ∨ u ∈ l := by
  intro l
  induction l with
  | nil => intro u; simp [insertById]
  | cons v vs ih =>
    intro u
    by_cases hv : t.id ≤ v.id
    · simp [insertById, hv]
    · simp [insertById, hv, ih]
      tauto

theorem pairwise_insertById (t : Task) :
    ∀ (l : List Task), List.Pairwise (fun a b : Task => a.id ≤ b.id) l →
      List.Pairwise (fun a b : Task => a.id ≤ b.id) (insertById t l) := by
  intro l
  induction l with
  | nil => intro _; simp [insertById]
  | cons v vs ih =>
    intro hl
    rw [List.pairwise_cons] at hl
    obtain ⟨hv1, hv2⟩ := hl
    by_cases hv : t.id ≤ v.id
    · have he : insertById t (v :: vs) = t :: v :: vs := by simp [insertById, hv]
      rw [he]
      refine List.Pairwise.cons (fun b hb => ?_) (List.Pairwise.cons hv1 hv2)
      rcases List.mem_cons.mp hb with rfl | hb2
      · exact hv
      · exact le_trans hv (hv1 b hb2)
    · have he : insertById t (v :: vs) = v :: insertById t vs := by simp [insertById, hv]
      rw [he]
      refine List.Pairwise.cons (fun b hb => ?_) (ih hv2)
      rcases (mem_insertById t vs b).mp hb with rfl | hb2
      · exact le_of_not_le hv
      · exact hv1 b hb2

theorem sortById_pairwise :
    ∀ l : List Task, List.Pairwise (fun a b : Task => a.id ≤ b.id) (sortById l)
  | [] => by simp [sortById]
  | t :: ts => by
    simp only [sortById]
    exact pairwise_insertById t _ (sortById_pairwise ts)

theorem mem_sortById : ∀ (l : List Task) (u : Task), u ∈ sortById l ↔ u ∈ l := by
  intro l
  induction l with
  | nil => intro u; simp [sortById]
  | cons t ts ih => intro u; simp [sortById, mem_insertById, ih]

/-! ### Claim C6: keyword search -/

/-- C6: `search_tasks` fails exactly when the keyword is empty after
trimming; otherwise it returns, in ascending id order, exactly the tasks
whose casefolded title or description contains the casefolded trimmed
keyword as a substring. -/
theorem search_tasks_spec (s : Storage) (keyword : String) :
    (pyStrip keyword = "" →
      search_tasks s keyword = Except.error "Keyword cannot be empty") ∧
    (pyStrip keyword ≠ "" → ∃ l, search_tasks s keyword = Except.ok l ∧
      (∀ t, t ∈ l ↔ t ∈ s.tasks ∧
        search_matches (casefold (pyStrip keyword)) t = true) ∧
      List.Pairwise (fun a b : Task => a.id ≤ b.id) l) := by
  constructor
  · intro hkw
    simp [search_tasks, hkw]
  · intro hkw
    refine ⟨(get_all_tasks s).filter (search_matches (casefold (pyStrip keyword))),
      ?_, ?_, ?_⟩
    · simp [search_tasks, hkw]
    · intro t
      simp [List.mem_filter, get_all_tasks, mem_sortById]
    · exact List.Pairwise.sublist (List.filter_sublist _) (sortById_pairwise s.tasks)

/-- The "Buy milk" task of the C6 witness. -/
def c6task : Task :=
  ⟨1, "Buy milk", "", false, 0, Priority.medium, Option.none, Option.none,
    Recurrence.none, Option.none⟩

/-- Storage holding just `c6task`. -/
def c6store : Storage := ⟨[c6task], 2⟩

/-- Witness for C6 at a concrete input: searching "MILK" (non-empty after
trim) characterizes the result over a store holding "Buy milk". -/
theorem search_tasks_spec_witness :
    pyStrip "MILK" ≠ "" ∧
    (∃ l, search_tasks c6store "MILK" = Except.ok l ∧
      (∀ t, t ∈ l ↔ t ∈ c6store.tasks ∧
        search_matches (casefold (pyStrip "MILK")) t = true) ∧
      List.Pairwise (fun a b : Task => a.id ≤ b.id) l) :=
  ⟨by decide, (search_tasks_spec c6store "MILK").2 (by decide)⟩

/-! ### Claim C7: filtering with AND semantics -/

theorem data_eq_nil_iff {s : String} : s.data = [] ↔ s = "" := by
  constructor
  · intro h
    cases s with
    | mk d => rw [show d = [] from h]
  · intro h
    rw [h]

theorem strContains_empty_hay {c : String} (hc : c ≠ "") :
    strContains (casefold "") (casefold c) = false := by
  have hd : c.data ≠ [] := fun h => hc (data_eq_nil_iff.mp h)
  show subAt (casefold c).data [] = false
  cases hcd : c.data with
  | nil => exact absurd hcd hd
  | cons ch rest =>
    show subAt (c.data.map Char.toLower) [] = false
    rw [hcd]
    simp [subAt, startsWithCh]

/-- The category test, restated as the claim states it, for a non-empty
filter string: a task matches exactly when it has a category of which the
filter is a case-insensitive substring. -/
theorem categoryMatches_iff {c : String} (hc : c ≠ "") (t : Task) :
    categoryMatches c t = true ↔
      ∃ cat, t.category = some cat ∧
        strContains (casefold cat) (casefold c) = true := by
  cases hcat : t.category with
  | none => simp [categoryMatches, hcat]
  | some s =>
    by_cases hs : s = ""
    · subst hs
      simp [categoryMatches, hcat, strContains_empty_hay hc]
    · simp [categoryMatches, hcat, hs]

/-- C7: for every reachable filter state (the category filter, when set,
is a non-empty string — `set_filter_category` never stores an empty one)
`filter_tasks` returns, in ascending id order, exactly the tasks matching
every active dimension: completion equals the status filter, priority
equals the priority filter, and the category filter occurs as a
case-insensitive substring of the task's category. -/
theorem filter_tasks_spec (s : Storage) (f : FilterState)
    (hc : ∀ c, f.category = some c → c ≠ "") :
    (∀ t, t ∈ filter_tasks s f ↔
      t ∈ s.tasks ∧
      (∀ b, f.status = some b → t.is_completed = b) ∧
      (∀ p, f.priority = some p → t.priority = p) ∧
      (∀ c, f.category = some c →
        ∃ cat, t.category = some cat ∧
          strContains (casefold cat) (casefold c) = true)) ∧
    List.Pairwise (fun a b : Task => a.id ≤ b.id) (filter_tasks s f) := by
  obtain ⟨st, pr, cat⟩ := f
  have hfil : ∀ (l : List Task) (p : Task → Bool),
      List.Pairwise (fun a b : Task => a.id ≤ b.id) l →
      List.Pairwise (fun a b : Task => a.id ≤ b.id) (List.filter p l) :=
    fun l p h => List.Pairwise.sublist (List.filter_sublist l) h
  have hp := sortById_pairwise s.tasks
  constructor
  · intro t
    cases cat with
    | none =>
      cases st <;> cases pr <;>
        (simp [filter_tasks, get_all_tasks, List.mem_filter, mem_sortById,
          beq_iff_eq]
         try tauto)
    | some c =>
      have hcn : c ≠ "" := hc c rfl
      cases st <;> cases pr <;>
        (simp [filter_tasks, get_all_tasks, List.mem_filter, mem_sortById,
          beq_iff_eq, categoryMatches_iff hcn]
         try tauto)
  · cases st <;> cases pr <;> cases cat <;>
      simp only [filter_tasks, get_all_tasks] <;>
      first
      | exact hp
      | exact hfil _ _ hp
      | exact hfil _ _ (hfil _ _ hp)
      | exact hfil _ _ (hfil _ _ (hfil _ _ hp))

/-- The only writer of the category filter never stores an empty string,
so every reachable filter state satisfies the hypothesis of the C7
theorem. -/
theorem set_filter_category_ne_empty (f : FilterState) (category : String) :
    ∀ c, (set_filter_category f category).category = some c → c ≠ "" := by
  intro c hcc
  unfold set_filter_category at hcc
  by_cases hcl : pyStrip category = ""
  · simp [hcl] at hcc
  · simp [hcl] at hcc
    rw [← hcc]
    exact hcl

/-- A high-priority work task for the C7 witness. -/
def c7work : Task :=
  ⟨1, "Report", "", false, 0, Priority.high, some "Work stuff", Option.none,
    Recurrence.none, Option.none⟩

/-- A high-priority home task for the C7 witness. -/
def c7home : Task :=
  ⟨2, "Dishes", "", false, 0, Priority.high, some "Home", Option.none,
    Recurrence.none, Option.none⟩

/-- Storage holding the two C7 witness tasks. -/
def c7store : Storage := ⟨[c7work, c7home], 3⟩

/-- Filter state of the C7 witness: priority HIGH and category "work". -/
def c7filter : FilterState := ⟨Option.none, some Priority.high, some "work"⟩

/-- Witness for C7 at a concrete input: priority HIGH and category "work"
filters applied together. -/
theorem filter_tasks_spec_witness :
    (∀ t, t ∈ filter_tasks c7store c7filter ↔
      t ∈ c7store.tasks ∧
      (∀ b, c7filter.status = some b → t.is_completed = b) ∧
      (∀ p, c7filter.priority = some p → t.priority = p) ∧
      (∀ c, c7filter.category = some c →
        ∃ cat, t.category = some cat ∧
          strContains (casefold cat) (casefold c) = true)) ∧
    List.Pairwise (fun a b : Task => a.id ≤ b.id) (filter_tasks c7store c7filter) :=
  filter_tasks_spec c7store c7filter
    (by intro c hcc; injection hcc with hcw; rw [← hcw]; decide)

/-! ### Claim C1: monthly recurrence and the November slip -/

/-- C1: the MONTHLY branch of `calculate_next_due_date` clamps to the last
day of the next month (Jan 31 maps to Feb 28, or Feb 29 in a leap year),
but for a due date in November it does not produce a December date at all:
computing the last day of December evaluates `datetime(year, 13, 1)`, which
raises `ValueError`.  The code therefore contradicts the claim (and its own
docstring, which promises a next due date and documents a raise only for an
unrecognized recurrence). -/
theorem calc_next_due_monthly_november_raises :
    calculate_next_due_date ⟨2025, 11, 15⟩ Recurrence.monthly =
      Except.error "month must be in 1..12" ∧
    calculate_next_due_date ⟨2025, 1, 31⟩ Recurrence.monthly =
      Except.ok ⟨2025, 2, 28⟩ ∧
    calculate_next_due_date ⟨2024, 1, 31⟩ Recurrence.monthly =
      Except.ok ⟨2024, 2, 29⟩ ∧
    calculate_next_due_date ⟨2025, 12, 31⟩ Recurrence.monthly =
      Except.ok ⟨2026, 1, 31⟩ := by
  refine ⟨rfl, rfl, rfl, rfl⟩

/-! ### Claim C4: toggling any recurring task with a due date -/

/-- An incomplete DAILY task due 2025-01-31 (the claim's own example),
stored with id 1. -/
def c4daily : Task :=
  ⟨1, "Water plants", "", false, 0, Priority.medium, Option.none,
    some ⟨2025, 1, 31⟩, Recurrence.daily, Option.none⟩

/-- An incomplete WEEKLY task due 2025-01-31, stored with id 2. -/
def c4weekly : Task :=
  ⟨2, "Laundry", "", false, 0, Priority.medium, Option.none,
    some ⟨2025, 1, 31⟩, Recurrence.weekly, Option.none⟩

/-- An incomplete MONTHLY task due 2025-01-15, stored with id 3. -/
def c4monthly : Task :=
  ⟨3, "Pay rent", "", false, 0, Priority.medium, Option.none,
    some ⟨2025, 1, 15⟩, Recurrence.monthly, Option.none⟩

/-- Storage holding the three recurring C4 tasks. -/
def c4store : Storage := ⟨[c4daily, c4weekly, c4monthly], 4⟩

/-- C4: completing an incomplete task with a non-NONE recurrence and a due
date is claimed to create exactly one successor (due +1 day for DAILY, +7
for WEEKLY) and then flip completion — but services.py never imports
`calculate_next_due_date`, so every such toggle raises `NameError` at the
successor computation: no successor is ever created, the completion flag
is not flipped and storage is returned untouched, for DAILY, WEEKLY and
MONTHLY alike.  (The no-successor conditions of the claim never reach the
broken statement.) -/
theorem toggle_recurring_raises_name_error :
    c4daily.is_completed = false ∧
    c4daily.recurrence = Recurrence.daily ∧
    c4daily.due_date = some ⟨2025, 1, 31⟩ ∧
    toggle_task c4store 1 0 = (Except.error nameErrorNextDueDate, c4store) ∧
    toggle_task c4store 2 0 = (Except.error nameErrorNextDueDate, c4store) ∧
    toggle_task c4store 3 0 = (Except.error nameErrorNextDueDate, c4store) := by
  refine ⟨rfl, rfl, rfl, rfl, rfl, rfl⟩

/-! ### Claim C8: alphabetical sort tie-breaking -/

/-- The older of two tasks whose titles differ only in case. -/
def c8older : Task :=
  ⟨1, "apple", "", false, 1, Priority.medium, Option.none, Option.none,
    Recurrence.none, Option.none⟩

/-- The newer task with the same case-folded title. -/
def c8newer : Task :=
  ⟨2, "Apple", "", false, 2, Priority.medium, Option.none, Option.none,
    Recurrence.none, Option.none⟩

/-- C8: on two tasks with equal case-folded titles, `sort_alphabetically`
puts the *older* one first (the key tuple `(casefolded title, created_at)`
is sorted ascending with no reverse flag), while the claim — and the
code's own inline comment — say ties go newest first. -/
theorem sort_alphabetically_ties_oldest_first :
    casefold c8newer.title = casefold c8older.title ∧
    c8older.created_at < c8newer.created_at ∧
    sort_alphabetically [c8newer, c8older] = [c8older, c8newer] := by
  refine ⟨rfl, by decide, rfl⟩

/-! ### Claim C9: toggling a missing id -/

/-- C9: when the id is not in storage, `toggle_task` returns the pair
`(None, None)` and leaves the storage exactly as it was. -/
theorem toggle_task_missing_id (s : Storage) (i now : Nat)
    (h : s.get_by_id i = Option.none) :
    toggle_task s i now = (Except.ok (Option.none, Option.none), s) := by
  simp [toggle_task, h]

/-- Witness for C9 at a concrete input: id 1 in fresh empty storage. -/
theorem toggle_task_missing_id_witness :
    Storage.empty.get_by_id 1 = Option.none ∧
    toggle_task Storage.empty 1 0 = (Except.ok (Option.none, Option.none), Storage.empty) :=
  ⟨rfl, toggle_task_missing_id Storage.empty 1 0 rfl⟩

/-! ### Claim C10: unrecognized status filter strings are ignored -/

/-- C10: for any input whose trimmed, casefolded form is none of
all/pending/completed, `set_filter_status` returns (no exception is
possible) and the whole filter state is unchanged. -/
theorem set_filter_status_unrecognized (f : FilterState) (status : String)
    (h1 : casefold (pyStrip status) ≠ "all")
    (h2 : casefold (pyStrip status) ≠ "pending")
    (h3 : casefold (pyStrip status) ≠ "completed") :
    set_filter_status f status = f := by
  simp [set_filter_status, h1, h2, h3]

/-- Concrete filter state used in the C10 witness. -/
def c10state : FilterState := ⟨some true, some Priority.low, some "work"⟩

/-- Witness for C10 at a concrete input: the string " Done " is not a
recognized status and leaves a fully populated filter state untouched. -/
theorem set_filter_status_unrecognized_witness :
    casefold (pyStrip " Done ") ≠ "all" ∧
    casefold (pyStrip " Done ") ≠ "pending" ∧
    casefold (pyStrip " Done ") ≠ "completed" ∧
    set_filter_status c10state " Done " = c10state :=
  ⟨by decide, by decide, by decide,
    set_filter_status_unrecognized c10state " Done " (by decide) (by decide) (by decide)⟩

end Todo
